import Mathlib

/-!
Shallow embedding of the RSS aggregation pipeline of `genkit-programmez`
(`main.go`): the Feed Fetcher (`fetchRSSItems`), the Feed Resolver
(`fetchFirstWorkingFeed`), the Item Filter (`filterTransferItems`) and the
Context Assembler (`fetchCyclingContext`).  The network is modelled as an
oracle `net : String → HTTPResult` giving, for each URL, the outcome of the
HTTP GET issued by the fetcher.
-/

/-- One syndication entry, mirroring `rssItem` (title/link/pubDate,
missing XML fields decode to the empty string). -/
structure rssItem where
  title : String
  link : String
  pubDate : String
deriving DecidableEq

/-- The channel element of a feed document, mirroring the anonymous
`Channel` struct of `rssFeed`. -/
structure rssChannel where
  items : List rssItem
deriving DecidableEq

/-- A parsed feed document, mirroring `rssFeed`. -/
structure rssFeed where
  channel : rssChannel
deriving DecidableEq

/-- Outcome of the HTTP GET performed by `fetchRSSItems` for one URL:
either a transport-level failure (`client.Do` returns an error), or a
response with a status code and a body that either parses as an
`rssFeed` (`some`) or fails XML decoding (`none`). -/
inductive HTTPResult where
  | transportError
  | response (status : Nat) (body : Option rssFeed)
deriving DecidableEq

/-- The error produced when every candidate URL of a source fails,
mirroring `fmt.Errorf("no working URL among %v", urls)`: it names the
attempted URLs. -/
inductive FeedError where
  | allSourcesExhausted (attempted : List String)
deriving DecidableEq

/-- One logical news source: a display name and ordered candidate URLs,
mirroring the element type of the `cyclingFeeds` slice. -/
structure FeedSource where
  name : String
  urls : List String
deriving DecidableEq

/-- The constant `maxItemsPerFeed = 5`. -/
def maxItemsPerFeed : Nat := 5

/-- The configured sources, mirroring the `cyclingFeeds` slice literal. -/
def cyclingFeeds : List FeedSource :=
  [ { name := "L\x27Équipe (Cyclisme)",
      urls := ["https://dwh.lequipe.fr/api/edito/rss?path=/Cyclisme/"] },
    { name := "DirectVelo",
      urls := ["https://feeds.feedburner.com/ActualitsDirectvelo"] } ]

/-- The keyword list, mirroring the `transferKeywords` slice literal. -/
def transferKeywords : List String :=
  [ "transfert", "transfer", "mutation", "mercato", "signe", "signature",
    "recrut", "rejoint", "quitte", "engage", "arrive", "contrat", "renforce" ]

/-- Model of `strings.ToLower`, character-wise on the string's data
(the keywords are ASCII, so only the ASCII range matters here). -/
def lowerStr (s : String) : String :=
  ⟨s.data.map Char.toLower⟩

/-- Model of `strings.Contains s pat`: `pat` occurs as a contiguous
substring of `s`. -/
def strContains (s pat : String) : Bool :=
  s.data.tails.any (fun t => pat.data.isPrefixOf t)

/-- The per-item test of the inner keyword loop of `filterTransferItems`:
the lower-cased title contains at least one keyword (the Go loop breaks
at the first matching keyword, which is exactly an `any`). -/
def titleMatches (it : rssItem) : Bool :=
  transferKeywords.any (fun kw => strContains (lowerStr it.title) kw)

/-- `filterTransferItems`: keep the items whose lower-cased title
contains a keyword; if nothing matched, fall back to the original list. -/
def filterTransferItems (items : List rssItem) : List rssItem :=
  let filtered := items.filter titleMatches
  if filtered.length = 0 then items else filtered

/-- `fetchRSSItems` after the request has been issued: fail on transport
error, fail on a status outside 200–299, fail on an XML decode error,
and otherwise truncate the channel's item list to `limit`. -/
def fetchRSSItems (r : HTTPResult) (limit : Nat) : Option (List rssItem) :=
  match r with
  | .transportError => none
  | .response status body =>
    if status < 200 ∨ 300 ≤ status then none
    else
      match body with
      | none => none
      | some feed =>
        let items := feed.channel.items
        some (if limit < items.length then items.take limit else items)

/-- The loop of `fetchFirstWorkingFeed`: try each URL in order, stopping
at the first whose fetch succeeds with a non-empty item list
(`err == nil && len(items) > 0`). -/
def resolveLoop (net : String → HTTPResult) (limit : Nat) :
    List String → Option (List rssItem × String)
  | [] => none
  | u :: rest =>
    match fetchRSSItems (net u) limit with
    | some items =>
      if 0 < items.length then some (items, u) else resolveLoop net limit rest
    | none => resolveLoop net limit rest

/-- `fetchFirstWorkingFeed`: first success wins; when the loop finds
nothing the function returns `nil` items, an empty URL and the
`AllSourcesExhausted` error naming the candidate URLs. -/
def fetchFirstWorkingFeed (net : String → HTTPResult) (urls : List String)
    (limit : Nat) : List rssItem × String × Option FeedError :=
  match resolveLoop net limit urls with
  | some (items, u) => (items, u, none)
  | none => ([], "", some (.allSourcesExhausted urls))

/-- The URLs the loop of `fetchFirstWorkingFeed` actually attempts,
in order: every URL up to and including the first success, or all of
them when none succeeds. -/
def attemptedURLs (net : String → HTTPResult) (limit : Nat) :
    List String → List String
  | [] => []
  | u :: rest =>
    match fetchRSSItems (net u) limit with
    | some items =>
      if 0 < items.length then [u] else u :: attemptedURLs net limit rest
    | none => u :: attemptedURLs net limit rest

/-- The snippet line built at lines 173–177 of `fetchCyclingContext`:
`fmt.Sprintf("- %s (%s)", it.Title, date)` with the date defaulting to
the placeholder when empty. -/
def snippetOf (it : rssItem) : String :=
  "- " ++ it.title ++ " (" ++
    (if it.pubDate = "" then "date inconnue" else it.pubDate) ++ ")"

/-- The fallback snippet appended when no source produced a snippet. -/
def fallbackSnippet : String :=
  "- Aucun flux cyclisme accessible pour le moment. Réponds de façon générale et prudente sur les transferts récents."

/-- The body of the inner `for _, it := range filterTransferItems(items)`
loop: append the snippet, and append the link only when non-empty. -/
def itemStep (acc : List String × List String) (it : rssItem) :
    List String × List String :=
  (acc.1 ++ [snippetOf it],
   if it.link ≠ "" then acc.2 ++ [it.link] else acc.2)

/-- One iteration of the outer `for _, feed := range cyclingFeeds` loop of
`fetchCyclingContext`: on resolver failure skip the source; on success run
the item loop over the filtered items, then append the resolved feed URL
when non-empty. -/
def processFeed (net : String → HTTPResult) (acc : List String × List String)
    (feed : FeedSource) : List String × List String :=
  match fetchFirstWorkingFeed net feed.urls maxItemsPerFeed with
  | (items, srcURL, none) =>
    let acc2 := (filterTransferItems items).foldl itemStep acc
    if srcURL ≠ "" then (acc2.1, acc2.2 ++ [srcURL]) else acc2
  | (_, _, some _) => acc

/-- The accumulators of `fetchCyclingContext` after the source loop and
before the fallback check. -/
def assembleRaw (net : String → HTTPResult) : List String × List String :=
  cyclingFeeds.foldl (processFeed net) ([], [])

/-- `fetchCyclingContext`: run the source loop, substitute the fallback
snippet when no snippet was produced, and return a `nil` error. -/
def fetchCyclingContext (net : String → HTTPResult) :
    List String × List String × Option FeedError :=
  let acc := assembleRaw net
  ((if acc.1.length = 0 then acc.1 ++ [fallbackSnippet] else acc.1),
   acc.2, none)

/-- The non-empty links of an item list, in order. -/
def itemLinks (l : List rssItem) : List String :=
  l.filterMap (fun it => if it.link = "" then none else some it.link)

/-- Closed form of one source's contribution to the two accumulators of
`fetchCyclingContext`: snippets of the retained items, and their
non-empty links followed by the resolved URL when non-empty; a skipped
source contributes nothing.  Proved equal to `processFeed` on empty
accumulators below. -/
def sourceContribution (net : String → HTTPResult) (feed : FeedSource) :
    List String × List String :=
  match fetchFirstWorkingFeed net feed.urls maxItemsPerFeed with
  | (items, srcURL, none) =>
    ((filterTransferItems items).map snippetOf,
     itemLinks (filterTransferItems items) ++
       (if srcURL ≠ "" then [srcURL] else []))
  | (_, _, some _) => ([], [])

/-- Spec-side description of one source's part of the source URL list,
following the spec's words: per successful source, the non-empty links of
the retained (filtered) items in item order, followed by the resolved
feed URL; a failed source contributes nothing. -/
def specSourceURLs (net : String → HTTPResult) (feed : FeedSource) :
    List String :=
  match fetchFirstWorkingFeed net feed.urls maxItemsPerFeed with
  | (items, srcURL, none) =>
    (filterTransferItems items).filterMap
      (fun it => if it.link = "" then none else some it.link) ++ [srcURL]
  | (_, _, some _) => []

/-- The retained items of one source: the filtered items of a successful
resolution, nothing for a skipped source. -/
def retainedItems (net : String → HTTPResult) (feed : FeedSource) :
    List rssItem :=
  match fetchFirstWorkingFeed net feed.urls maxItemsPerFeed with
  | (items, _, none) => filterTransferItems items
  | (_, _, some _) => []

/-- Spec-side snippet format from the spec's data model section:
a line consisting of a dash, the title, and the date or the placeholder
in parentheses. -/
def specSnippet (it : rssItem) : String :=
  "- " ++ it.title ++ " (" ++
    (if it.pubDate = "" then "date inconnue" else it.pubDate) ++ ")"

/-- A concrete transfer-related feed item, used to instantiate theorems. -/
def wItem : rssItem :=
  { title := "Transfert: X rejoint Y", link := "https://example.org/a",
    pubDate := "2026-01-01" }

/-- A concrete item whose title matches no keyword. -/
def wItemNoMatch : rssItem :=
  { title := "Etape 3 du Tour", link := "", pubDate := "" }

/-- A concrete network oracle: only the URL `"b"` answers with a feed
containing `wItem`; every other URL suffers a transport failure. -/
def wNet : String → HTTPResult := fun url =>
  if url = "b" then .response 200 (some ⟨⟨[wItem]⟩⟩) else .transportError

/-- A concrete network oracle on which every fetch fails. -/
def wNetDown : String → HTTPResult := fun _ => .transportError

/-- A concrete parsed feed document with six items. -/
def wDocSix : rssFeed :=
  ⟨⟨[ { title := "t1", link := "", pubDate := "" },
      { title := "t2", link := "", pubDate := "" },
      { title := "t3", link := "", pubDate := "" },
      { title := "t4", link := "", pubDate := "" },
      { title := "t5", link := "", pubDate := "" },
      { title := "t6", link := "", pubDate := "" } ]⟩⟩

/-- A concrete parsed feed document with two items. -/
def wDocTwo : rssFeed :=
  ⟨⟨[ { title := "t1", link := "", pubDate := "" },
      { title := "t2", link := "", pubDate := "" } ]⟩⟩

/-! ### Basic lemmas about the Item Filter -/

theorem filterTransferItems_ne_nil (xs : List rssItem) (h : xs ≠ []) :
    filterTransferItems xs ≠ [] := by
  by_cases hf : (List.filter titleMatches xs).length = 0
  · simpa [filterTransferItems, hf] using h
  · simp only [filterTransferItems, hf, if_false]
    exact fun hc => hf (by rw [hc]; rfl)

/-! ### Lemmas about the Feed Resolver loop -/

theorem resolveLoop_cons_none (net : String → HTTPResult) (limit : Nat)
    (v : String) (rest : List String)
    (hv : fetchRSSItems (net v) limit = none) :
    resolveLoop net limit (v :: rest) = resolveLoop net limit rest := by
  simp [resolveLoop, hv]

theorem resolveLoop_cons_empty (net : String → HTTPResult) (limit : Nat)
    (v : String) (rest : List String)
    (hv : fetchRSSItems (net v) limit = some []) :
    resolveLoop net limit (v :: rest) = resolveLoop net limit rest := by
  simp [resolveLoop, hv]

theorem resolveLoop_cons_success (net : String → HTTPResult) (limit : Nat)
    (v : String) (rest : List String) (l : List rssItem)
    (hv : fetchRSSItems (net v) limit = some l) (hl : l ≠ []) :
    resolveLoop net limit (v :: rest) = some (l, v) := by
  simp [resolveLoop, hv, List.length_pos.mpr hl]

theorem attemptedURLs_cons_none (net : String → HTTPResult) (limit : Nat)
    (v : String) (rest : List String)
    (hv : fetchRSSItems (net v) limit = none) :
    attemptedURLs net limit (v :: rest)
      = v :: attemptedURLs net limit rest := by
  simp [attemptedURLs, hv]

theorem attemptedURLs_cons_empty (net : String → HTTPResult) (limit : Nat)
    (v : String) (rest : List String)
    (hv : fetchRSSItems (net v) limit = some []) :
    attemptedURLs net limit (v :: rest)
      = v :: attemptedURLs net limit rest := by
  simp [attemptedURLs, hv]

theorem attemptedURLs_cons_success (net : String → HTTPResult) (limit : Nat)
    (v : String) (rest : List String) (l : List rssItem)
    (hv : fetchRSSItems (net v) limit = some l) (hl : l ≠ []) :
    attemptedURLs net limit (v :: rest) = [v] := by
  simp [attemptedURLs, hv, List.length_pos.mpr hl]

theorem resolveLoop_some (net : String → HTTPResult) (limit : Nat)
    (urls : List String) (items : List rssItem) (u : String)
    (h : resolveLoop net limit urls = some (items, u)) :
    u ∈ urls ∧ items ≠ [] := by
  induction urls with
  | nil => simp [resolveLoop] at h
  | cons v rest ih =>
    cases hv : fetchRSSItems (net v) limit with
    | none =>
      rw [resolveLoop_cons_none net limit v rest hv] at h
      exact (ih h).imp (List.mem_cons_of_mem v) id
    | some l =>
      by_cases hl : l = []
      · subst hl
        rw [resolveLoop_cons_empty net limit v rest hv] at h
        exact (ih h).imp (List.mem_cons_of_mem v) id
      · rw [resolveLoop_cons_success net limit v rest l hv hl] at h
        simp only [Option.some.injEq, Prod.mk.injEq] at h
        obtain ⟨rfl, rfl⟩ := h
        exact ⟨List.mem_cons_self v rest, hl⟩

theorem resolveLoop_skip (net : String → HTTPResult) (limit : Nat)
    (pre rest : List String)
    (hpre : ∀ v ∈ pre, fetchRSSItems (net v) limit = none ∨
        fetchRSSItems (net v) limit = some []) :
    resolveLoop net limit (pre ++ rest) = resolveLoop net limit rest ∧
    attemptedURLs net limit (pre ++ rest)
      = pre ++ attemptedURLs net limit rest := by
  induction pre with
  | nil => simp
  | cons v pre ih =>
    have hv := hpre v (List.mem_cons_self v pre)
    obtain ⟨ih1, ih2⟩ := ih (fun w hw => hpre w (List.mem_cons_of_mem v hw))
    constructor
    · calc resolveLoop net limit ((v :: pre) ++ rest)
          = resolveLoop net limit (pre ++ rest) := by
            rcases hv with hv | hv
            · exact resolveLoop_cons_none net limit v (pre ++ rest) hv
            · exact resolveLoop_cons_empty net limit v (pre ++ rest) hv
        _ = resolveLoop net limit rest := ih1
    · calc attemptedURLs net limit ((v :: pre) ++ rest)
          = v :: attemptedURLs net limit (pre ++ rest) := by
            rcases hv with hv | hv
            · exact attemptedURLs_cons_none net limit v (pre ++ rest) hv
            · exact attemptedURLs_cons_empty net limit v (pre ++ rest) hv
        _ = v :: (pre ++ attemptedURLs net limit rest) := by rw [ih2]
        _ = (v :: pre) ++ attemptedURLs net limit rest := rfl

/-! ### Lemmas about the Context Assembler -/

theorem foldl_itemStep (l : List rssItem) (a b : List String) :
    l.foldl itemStep (a, b) = (a ++ l.map snippetOf, b ++ itemLinks l) := by
  induction l generalizing a b with
  | nil => simp [itemLinks]
  | cons x xs ih =>
    by_cases hx : x.link = ""
    · simp [List.foldl_cons, itemStep, hx, ih, itemLinks,
        List.filterMap_cons, List.append_assoc]
    · simp [List.foldl_cons, itemStep, hx, ih, itemLinks,
        List.filterMap_cons, List.append_assoc]

theorem processFeed_eq (net : String → HTTPResult)
    (acc : List String × List String) (feed : FeedSource) :
    processFeed net acc feed
      = (acc.1 ++ (sourceContribution net feed).1,
         acc.2 ++ (sourceContribution net feed).2) := by
  obtain ⟨a, b⟩ := acc
  cases hr : resolveLoop net maxItemsPerFeed feed.urls with
  | none =>
    simp [processFeed, sourceContribution, fetchFirstWorkingFeed, hr]
  | some p =>
    obtain ⟨items, u⟩ := p
    by_cases hu : u = ""
    · simp [processFeed, sourceContribution, fetchFirstWorkingFeed, hr,
        foldl_itemStep, hu]
    · simp [processFeed, sourceContribution, fetchFirstWorkingFeed, hr,
        foldl_itemStep, hu, List.append_assoc]

theorem foldl_processFeed (net : String → HTTPResult) (fs : List FeedSource)
    (a b : List String) :
    fs.foldl (processFeed net) (a, b)
      = (a ++ (fs.map (fun f => (sourceContribution net f).1)).flatten,
         b ++ (fs.map (fun f => (sourceContribution net f).2)).flatten) := by
  induction fs generalizing a b with
  | nil => simp
  | cons f fs ih =>
    rw [List.foldl_cons, processFeed_eq, ih]
    simp [List.append_assoc]

theorem assembleRaw_eq (net : String → HTTPResult) :
    assembleRaw net
      = ((cyclingFeeds.map (fun f => (sourceContribution net f).1)).flatten,
         (cyclingFeeds.map (fun f => (sourceContribution net f).2)).flatten) := by
  unfold assembleRaw
  rw [foldl_processFeed]
  simp

theorem sourceContribution_fst_nil (net : String → HTTPResult)
    (feed : FeedSource) (h : (sourceContribution net feed).1 = []) :
    sourceContribution net feed = ([], []) := by
  cases hr : resolveLoop net maxItemsPerFeed feed.urls with
  | none =>
    simp [sourceContribution, fetchFirstWorkingFeed, hr]
  | some p =>
    obtain ⟨items, u⟩ := p
    have hne : items ≠ [] :=
      (resolveLoop_some net maxItemsPerFeed feed.urls items u hr).2
    have hfil : filterTransferItems items ≠ [] :=
      filterTransferItems_ne_nil items hne
    rw [sourceContribution] at h
    rw [fetchFirstWorkingFeed, hr] at h
    simp only [List.map_eq_nil_iff] at h
    exact absurd h hfil

theorem cyclingFeeds_urls_ne_empty :
    ∀ f ∈ cyclingFeeds, ∀ v ∈ f.urls, v ≠ "" := by decide

/-! ### Claim theorems -/

/-- Claim C3: for every ordered candidate URL list, `fetchFirstWorkingFeed`
tries candidates in sequence and, at the first URL whose fetch succeeds
with a non-empty item list, returns exactly that item list paired with
that URL (and no error), attempting no later candidate. -/
theorem resolver_first_success_c3 (net : String → HTTPResult) (limit : Nat)
    (pre post : List String) (u : String) (items : List rssItem)
    (hpre : ∀ v ∈ pre, fetchRSSItems (net v) limit = none ∨
        fetchRSSItems (net v) limit = some [])
    (hu : fetchRSSItems (net u) limit = some items) (hne : items ≠ []) :
    fetchFirstWorkingFeed net (pre ++ u :: post) limit = (items, u, none) ∧
    attemptedURLs net limit (pre ++ u :: post) = pre ++ [u] := by
  obtain ⟨h1, h2⟩ := resolveLoop_skip net limit pre (u :: post) hpre
  have hres : resolveLoop net limit (u :: post) = some (items, u) :=
    resolveLoop_cons_success net limit u post items hu hne
  have hatt : attemptedURLs net limit (u :: post) = [u] :=
    attemptedURLs_cons_success net limit u post items hu hne
  constructor
  · rw [fetchFirstWorkingFeed, h1, hres]
  · rw [h2, hatt]

/-- Witness for C3: with a concrete oracle on which the first candidate
fails and the second succeeds with one item, the resolver returns that
item list with the second URL and attempts only the first two URLs. -/
theorem resolver_first_success_c3_witness :
    fetchFirstWorkingFeed wNet (["a"] ++ "b" :: ["c"]) 5
      = ([wItem], "b", none) ∧
    attemptedURLs wNet 5 (["a"] ++ "b" :: ["c"]) = ["a"] ++ ["b"] :=
  resolver_first_success_c3 wNet 5 ["a"] ["c"] "b" [wItem]
    (by decide) (by decide) (by decide)

/-- Claim C7: when every candidate URL either fails or returns an empty
item list, `fetchFirstWorkingFeed` fails with the `AllSourcesExhausted`
error naming the attempted URLs — and indeed every URL was attempted. -/
theorem resolver_exhausted_c7 (net : String → HTTPResult) (limit : Nat)
    (urls : List String)
    (h : ∀ v ∈ urls, fetchRSSItems (net v) limit = none ∨
        fetchRSSItems (net v) limit = some []) :
    fetchFirstWorkingFeed net urls limit
      = ([], "", some (FeedError.allSourcesExhausted urls)) ∧
    attemptedURLs net limit urls = urls := by
  obtain ⟨h1, h2⟩ := resolveLoop_skip net limit urls [] h
  rw [List.append_nil] at h1 h2
  constructor
  · rw [fetchFirstWorkingFeed, h1]
    rfl
  · rw [h2]
    simp [attemptedURLs]

/-- Witness for C7: a concrete oracle on which both candidate URLs suffer
a transport failure yields the `AllSourcesExhausted` error naming both. -/
theorem resolver_exhausted_c7_witness :
    fetchFirstWorkingFeed wNet ["a", "c"] 5
      = ([], "", some (FeedError.allSourcesExhausted ["a", "c"])) ∧
    attemptedURLs wNet 5 ["a", "c"] = ["a", "c"] :=
  resolver_exhausted_c7 wNet 5 ["a", "c"] (by decide)

/-- Claim C10: on the empty candidate URL list, `fetchFirstWorkingFeed`
fails without attempting any fetch, returning an empty item list, an
empty resolved URL, and an error. -/
theorem resolver_empty_c10 (net : String → HTTPResult) (limit : Nat) :
    fetchFirstWorkingFeed net [] limit
      = ([], "", some (FeedError.allSourcesExhausted [])) ∧
    attemptedURLs net limit [] = [] :=
  ⟨rfl, rfl⟩

/-- Claim C4: `filterTransferItems` is idempotent on non-empty lists. -/
theorem filter_idempotent_c4 (xs : List rssItem) (h : xs ≠ []) :
    filterTransferItems (filterTransferItems xs) = filterTransferItems xs := by
  have hself : (xs.filter titleMatches).filter titleMatches
      = xs.filter titleMatches :=
    List.filter_eq_self.mpr (fun a ha => List.of_mem_filter ha)
  by_cases hf : (List.filter titleMatches xs).length = 0
  · simp [filterTransferItems, hf]
  · simp [filterTransferItems, hf, hself]

/-- Witness for C4: filtering a concrete already-filtered singleton list
again yields the same list. -/
theorem filter_idempotent_c4_witness :
    filterTransferItems (filterTransferItems [wItem])
      = filterTransferItems [wItem] :=
  filter_idempotent_c4 [wItem] (by decide)

/-- Claim C5: when no item of a non-empty list has a lower-cased title
containing any keyword, `filterTransferItems` returns the input
unchanged; and the filter never returns an empty result from a non-empty
input. -/
theorem filter_no_match_c5 (xs : List rssItem) (h : xs ≠ []) :
    ((∀ it ∈ xs, titleMatches it = false) → filterTransferItems xs = xs) ∧
    filterTransferItems xs ≠ [] := by
  constructor
  · intro hall
    have hnil : xs.filter titleMatches = [] :=
      List.filter_eq_nil_iff.mpr (fun a ha => by simp [hall a ha])
    simp [filterTransferItems, hnil]
  · exact filterTransferItems_ne_nil xs h

/-- Witness for C5: a concrete singleton list whose title matches no
keyword is returned unchanged, and the result is non-empty. -/
theorem filter_no_match_c5_witness :
    filterTransferItems [wItemNoMatch] = [wItemNoMatch] ∧
    filterTransferItems [wItemNoMatch] ≠ [] :=
  ⟨(filter_no_match_c5 [wItemNoMatch] (by decide)).1 (by decide),
   (filter_no_match_c5 [wItemNoMatch] (by decide)).2⟩

/-- Claim C6: on a successfully fetched and parsed feed, `fetchRSSItems`
with the limit `maxItemsPerFeed = 5` returns exactly the first 5 items in
document order when the channel has more than 5 items, and the item list
unmodified when it has at most 5. -/
theorem fetcher_truncation_c6 (status : Nat) (doc : rssFeed)
    (h2 : 200 ≤ status) (h3 : status < 300) :
    (5 < doc.channel.items.length →
      fetchRSSItems (HTTPResult.response status (some doc)) maxItemsPerFeed
        = some (doc.channel.items.take 5)) ∧
    (doc.channel.items.length ≤ 5 →
      fetchRSSItems (HTTPResult.response status (some doc)) maxItemsPerFeed
        = some doc.channel.items) := by
  have hstat : ¬(status < 200 ∨ 300 ≤ status) := by omega
  constructor
  · intro h5
    simp [fetchRSSItems, hstat, maxItemsPerFeed, h5]
  · intro h5
    simp [fetchRSSItems, hstat, maxItemsPerFeed, Nat.not_lt.mpr h5]

/-- Witness for C6: a concrete 200-response with six items is truncated
to its first five items, and one with two items is returned unmodified. -/
theorem fetcher_truncation_c6_witness :
    fetchRSSItems (HTTPResult.response 200 (some wDocSix)) maxItemsPerFeed
      = some (wDocSix.channel.items.take 5) ∧
    fetchRSSItems (HTTPResult.response 200 (some wDocTwo)) maxItemsPerFeed
      = some wDocTwo.channel.items :=
  ⟨(fetcher_truncation_c6 200 wDocSix (by decide) (by decide)).1 (by decide),
   (fetcher_truncation_c6 200 wDocTwo (by decide) (by decide)).2 (by decide)⟩

theorem assembleRaw_fst (net : String → HTTPResult) :
    (assembleRaw net).1
      = (cyclingFeeds.map (fun f => (sourceContribution net f).1)).flatten := by
  rw [assembleRaw_eq]

theorem assembleRaw_snd (net : String → HTTPResult) :
    (assembleRaw net).2
      = (cyclingFeeds.map (fun f => (sourceContribution net f).2)).flatten := by
  rw [assembleRaw_eq]

theorem snippetOf_eq_specSnippet : snippetOf = specSnippet := rfl

/-- Claim C1: if zero snippets are produced across all sources, the
Context Assembler returns exactly one snippet, the fixed fallback string,
and an empty source URL list; and its snippet list is never empty. -/
theorem assembler_fallback_c1 (net : String → HTTPResult) :
    ((assembleRaw net).1 = [] →
      fetchCyclingContext net = ([fallbackSnippet], [], none)) ∧
    (fetchCyclingContext net).1 ≠ [] := by
  constructor
  · intro h
    have h1 : (cyclingFeeds.map
        (fun f => (sourceContribution net f).1)).flatten = [] := by
      rw [← assembleRaw_fst]
      exact h
    have hall : ∀ f ∈ cyclingFeeds, sourceContribution net f = ([], []) := by
      intro f hf
      exact sourceContribution_fst_nil net f
        (List.flatten_eq_nil_iff.mp h1 _ (List.mem_map_of_mem _ hf))
    have hsrc : (assembleRaw net).2 = [] := by
      rw [assembleRaw_snd, List.flatten_eq_nil_iff]
      intro l hl
      rw [List.mem_map] at hl
      obtain ⟨f, hf, rfl⟩ := hl
      rw [hall f hf]
    simp [fetchCyclingContext, h, hsrc]
  · by_cases h : (assembleRaw net).1 = []
    · simp [fetchCyclingContext, h]
    · have hlen : (assembleRaw net).1.length ≠ 0 := by
        simpa [List.length_eq_zero] using h
      simp [fetchCyclingContext, hlen, h]

/-- Witness for C1: on a concrete oracle where every fetch fails, the
assembler returns exactly the fallback snippet and no source URLs, and
its snippet list is non-empty. -/
theorem assembler_fallback_c1_witness :
    fetchCyclingContext wNetDown = ([fallbackSnippet], [], none) ∧
    (fetchCyclingContext wNetDown).1 ≠ [] :=
  ⟨(assembler_fallback_c1 wNetDown).1 rfl,
   (assembler_fallback_c1 wNetDown).2⟩

/-- Claim C2: the Context Assembler never fails — its error component is
`none` for every oracle; a source whose resolution fails contributes no
snippet and no source URL, while the accumulated snippet and source URL
lists are exactly the concatenation of the per-source contributions. -/
theorem assembler_absorbs_failures_c2 (net : String → HTTPResult) :
    (fetchCyclingContext net).2.2 = none ∧
    (∀ feed : FeedSource,
      (fetchFirstWorkingFeed net feed.urls maxItemsPerFeed).2.2 ≠ none →
      sourceContribution net feed = ([], [])) ∧
    (assembleRaw net).1
      = (cyclingFeeds.map (fun f => (sourceContribution net f).1)).flatten ∧
    (assembleRaw net).2
      = (cyclingFeeds.map (fun f => (sourceContribution net f).2)).flatten := by
  refine ⟨rfl, ?_, assembleRaw_fst net, assembleRaw_snd net⟩
  intro feed hfail
  cases hr : resolveLoop net maxItemsPerFeed feed.urls with
  | none => simp [sourceContribution, fetchFirstWorkingFeed, hr]
  | some p =>
    obtain ⟨items, u⟩ := p
    rw [fetchFirstWorkingFeed, hr] at hfail
    simp at hfail

/-- Witness for C2: on a concrete oracle where every fetch fails, the
failing DirectVelo source contributes no snippet and no source URL. -/
theorem assembler_absorbs_failures_c2_witness :
    sourceContribution wNetDown
      { name := "DirectVelo",
        urls := ["https://feeds.feedburner.com/ActualitsDirectvelo"] }
      = ([], []) :=
  (assembler_absorbs_failures_c2 wNetDown).2.1
    { name := "DirectVelo",
      urls := ["https://feeds.feedburner.com/ActualitsDirectvelo"] }
    (by decide)

/-- Claim C8: the source URL list returned by the Context Assembler is,
per successful source in declaration order, the non-empty links of that
source's retained items in item order followed by the resolved feed URL
(`specSourceURLs`), concatenated without deduplication. -/
theorem assembler_source_urls_c8 (net : String → HTTPResult) :
    (fetchCyclingContext net).2.1
      = (cyclingFeeds.map (specSourceURLs net)).flatten := by
  show (assembleRaw net).2 = _
  rw [assembleRaw_snd]
  congr 1
  apply List.map_congr_left
  intro f hf
  cases hr : resolveLoop net maxItemsPerFeed f.urls with
  | none =>
    simp [sourceContribution, specSourceURLs, fetchFirstWorkingFeed, hr]
  | some p =>
    obtain ⟨items, u⟩ := p
    have hu : u ∈ f.urls :=
      (resolveLoop_some net maxItemsPerFeed f.urls items u hr).1
    have hne : u ≠ "" := cyclingFeeds_urls_ne_empty f hf u hu
    simp [sourceContribution, specSourceURLs, fetchFirstWorkingFeed, hr,
      itemLinks, hne]

/-- Claim C9: the snippets accumulated by the Context Assembler are
exactly one `specSnippet` line per retained item, ordered by source
iteration order and then by item order within each source. -/
theorem assembler_snippets_c9 (net : String → HTTPResult) :
    (assembleRaw net).1
      = ((cyclingFeeds.map (retainedItems net)).flatten).map specSnippet := by
  rw [assembleRaw_fst, List.map_flatten, List.map_map]
  congr 1
  apply List.map_congr_left
  intro f hf
  cases hr : resolveLoop net maxItemsPerFeed f.urls with
  | none =>
    simp [sourceContribution, retainedItems, fetchFirstWorkingFeed, hr,
      Function.comp]
  | some p =>
    obtain ⟨items, u⟩ := p
    simp [sourceContribution, retainedItems, fetchFirstWorkingFeed, hr,
      Function.comp, snippetOf_eq_specSnippet]
